import Mathlib

/-!
Verification of the entity-reconciliation post-processing pipeline
(ensemble combination, threshold filtering, consecutive-span merging,
index normalization and rule-based span extension).

The Python sources are embedded shallowly:

* dictionaries keyed by PMID become association lists `List (String × _)`
  (Python dicts preserve insertion order; keys are unique, which appears
  as `Nodup` hypotheses where a proof needs it);
* entity dictionaries become structures with the same field names;
* floating-point confidence scores become rationals (only order
  comparisons are performed on them);
* Python string slicing `s[a:b]` (with its clamping and negative-index
  semantics) becomes `pySlice`;
* functions that mutate their input in place are rendered as pure
  functions returning the updated value;
* `str.find` becomes `pyFind` (first occurrence, `-1` when absent).
-/

namespace GutBrainSpec

/-- Python-style string slice `s[a:b]` on an explicit character list:
negative indices count from the end, and both bounds are clamped to
`[0, length]`. -/
def pySliceList (s : List Char) (a b : Int) : List Char :=
  let n : Int := s.length
  let norm : Int → Nat := fun i =>
    if i < 0 then (max (n + i) 0).toNat else (min i n).toNat
  let a' := norm a
  let b' := norm b
  (s.drop a').take (b' - a')

/-- Python-style string slice `s[a:b]` on a `String`. -/
def pySlice (s : String) (a b : Int) : String :=
  ⟨pySliceList s.data a b⟩

/-- First index at which `w` occurs as a substring of `s`
(Python `s.find(w)`), `-1` when it does not occur. -/
def pyFindList (w : List Char) : List Char → Int
  | [] => if w = [] then 0 else -1
  | c :: rest =>
    if w.isPrefixOf (c :: rest) then 0
    else
      let r := pyFindList w rest
      if r = -1 then -1 else r + 1

/-- `s.find(w)` for strings. -/
def pyFind (s w : String) : Int :=
  pyFindList w.data s.data

/-- The whitespace characters recognised by the regex class `\s`
(and stripped by `str.lstrip()` on ASCII text). -/
def isPySpace (c : Char) : Bool :=
  c = ' ' ∨ c = '\t' ∨ c = '\n' ∨ c = '\x0d' ∨ c = '\x0b' ∨ c = '\x0c'

/-- Python `s.lstrip()` restricted to the ASCII whitespace class. -/
def pyLstrip (s : String) : String :=
  ⟨s.data.dropWhile isPySpace⟩

/-- Python `s.startswith(pre)`. -/
def pyStartsWith (s pre : String) : Bool :=
  pre.data.isPrefixOf s.data

/-- Python `s.lower()` on ASCII text. -/
def pyLower (s : String) : String :=
  ⟨s.data.map (fun c =>
     if 'A' ≤ c ∧ c ≤ 'Z' then Char.ofNat (c.toNat + 32) else c)⟩

/-! ### Data model of `combine_ensemble_1_preds.py`

Entities in the evaluation format carry `start_idx`, `end_idx`,
`location` (`"title"` / `"abstract"`), `text_span` and `label`.
A per-PMID record carries opaque `metadata`, the entity list and an
opaque `relations` payload.  A prediction set maps PMIDs to records. -/

structure Span where
  start_idx : Int
  end_idx : Int
  location : String
  text_span : String
  label : String
deriving DecidableEq

structure Doc where
  metadata : String
  entities : List Span
  relations : List String
deriving DecidableEq

/-- A prediction set: insertion-ordered mapping from PMID to record. -/
abbrev DocSet : Type := List (String × Doc)

/-- Python `d.get(pmid)`: the first (unique) binding of a key. -/
def lookupDoc (d : DocSet) (pmid : String) : Option Doc :=
  (d.find? (fun q => q.1 = pmid)).map (fun q => q.2)

/-- The entity list of `d[pmid]`, `[]` when `pmid` is absent
(`d.get(pmid, {}).get("entities", [])`). -/
def entitiesAt (d : DocSet) (pmid : String) : List Span :=
  match lookupDoc d pmid with
  | some r => r.entities
  | none => []

/-- `extract_class_predictions`: keep, per PMID, only the entities whose
label is `class_label`; drop records left with no matching entity. -/
def extract_class_predictions (data_dict : DocSet) (class_label : String) : DocSet :=
  data_dict.filterMap (fun q =>
    let matching := q.2.entities.filter (fun e => e.label = class_label)
    if matching = [] then none
    else some (q.1, { q.2 with entities := matching }))

/-- `spans_overlap`: same location and intersecting half-open ranges. -/
def spans_overlap (span1 span2 : Span) : Bool :=
  if span1.location ≠ span2.location then false
  else !(decide (span1.end_idx ≤ span2.start_idx) ||
         decide (span2.end_idx ≤ span1.start_idx))

/-- The body of the `remove_overlapping_preds` loop for one record:
when the interfering set has entities for this PMID, drop every base
entity that overlaps one of them; otherwise leave the record alone. -/
def removeOverlapDoc (interfering_entities : DocSet) (entry : String × Doc) :
    String × Doc :=
  let interference := entitiesAt interfering_entities entry.1
  if interference = [] then entry
  else
    (entry.1,
     { entry.2 with
        entities := entry.2.entities.filter
          (fun e => !(interference.any (fun ie => spans_overlap e ie))) })

/-- `remove_overlapping_preds`: per PMID, drop base entities overlapping
the interfering entities of the same PMID. -/
def remove_overlapping_preds (base_dict : DocSet) (interfering_entities : DocSet) :
    DocSet :=
  base_dict.map (removeOverlapDoc interfering_entities)

/-- One step of the `add_extracted_predictions` loop: extend the entity
list of an existing record, or `setdefault` a fresh record (metadata
copied, relations `[]`) holding the extracted entities. -/
def addExtractedStep (acc : DocSet) (q : String × Doc) : DocSet :=
  if (lookupDoc acc q.1).isSome then
    acc.map (fun p =>
      if p.1 = q.1 then (p.1, { p.2 with entities := p.2.entities ++ q.2.entities })
      else p)
  else
    acc ++ [(q.1, { metadata := q.2.metadata, entities := q.2.entities,
                    relations := [] })]

/-- `add_extracted_predictions`: merge extracted records into the base. -/
def add_extracted_predictions (base_dict : DocSet) (extracted_dict : DocSet) :
    DocSet :=
  extracted_dict.foldl addExtractedStep base_dict

/-- `overwrite_predictions_for_class`: extract the class from the
high-precision set, drop overlapping base predictions, add the
extracted predictions.  (Note: no `remove_class_predictions` step.) -/
def overwrite_predictions_for_class (base_dict : DocSet) (class_dict : DocSet)
    (class_label : String) : DocSet :=
  let extracted := extract_class_predictions class_dict class_label
  let cleaned := remove_overlapping_preds base_dict extracted
  add_extracted_predictions cleaned extracted

/-- `remove_class_predictions`: strip all entities of the given label. -/
def remove_class_predictions (data_dict : DocSet) (class_label : String) : DocSet :=
  data_dict.map (fun q =>
    (q.1, { q.2 with entities := q.2.entities.filter (fun e => ¬ e.label = class_label) }))

/-- One step of the `merge_prediction_dicts` loop: extend the entity list
of an existing record, or append the whole record for a new PMID. -/
def mergeDictStep (merged : DocSet) (q : String × Doc) : DocSet :=
  if (lookupDoc merged q.1).isSome then
    merged.map (fun p =>
      if p.1 = q.1 then (p.1, { p.2 with entities := p.2.entities ++ q.2.entities })
      else p)
  else
    merged ++ [q]

/-- `merge_prediction_dicts`: append `class_dict` entities per PMID,
adding whole records for fresh PMIDs. -/
def merge_prediction_dicts (base_dict : DocSet) (class_dict : DocSet) : DocSet :=
  class_dict.foldl mergeDictStep base_dict

/-! ### Data model of `threshold_class.py`

Raw GLiNER predictions: entities carry `start_idx`, `end_idx` (in the
concatenated `title + " " + abstract` coordinate space, inclusive end),
`tag` (`"t"` / `"a"`), `text_span`, `entity_label` and a confidence
`score`.  A sample carries `title`, `abstract` and its `pred_entities`.
`filter_entities_by_threshold` can raise `KeyError` (the subscript
`label_thresholds['DDF']`), so it is embedded in `Except Unit`. -/

deriving instance DecidableEq for Except

structure PredEntity where
  start_idx : Int
  end_idx : Int
  tag : String
  text_span : String
  entity_label : String
  score : ℚ
deriving DecidableEq

structure Sample where
  title : String
  abstract : String
  pred_entities : List PredEntity
deriving DecidableEq

abbrev SampleSet : Type := List (String × Sample)

/-- A per-label threshold table (Python dict of label to score). -/
abbrev Thresholds : Type := List (String × ℚ)

/-- `label_thresholds.get(label)`. -/
def lookupTh (label_thresholds : Thresholds) (label : String) : Option ℚ :=
  (label_thresholds.find? (fun q => q.1 = label)).map (fun q => q.2)

/-- The per-entity decision of `filter_entities_by_threshold`:
`ok true` keep, `ok false` drop (unknown label, or score below
threshold), `error ()` the `KeyError` raised by
`label_thresholds['DDF']` when `'DDF'` is absent. -/
def keepDecision (label_thresholds : Thresholds) (entity : PredEntity) :
    Except Unit Bool :=
  let entity_label := pyLower entity.entity_label
  match lookupTh label_thresholds entity_label with
  | some threshold => Except.ok (decide (threshold ≤ entity.score))
  | none =>
    if entity_label = "ddf" then
      match lookupTh label_thresholds "DDF" with
      | some threshold => Except.ok (decide (threshold ≤ entity.score))
      | none => Except.error ()
    else
      Except.ok false

/-- The inner loop of `filter_entities_by_threshold`: the kept sublist
of an entity list, or the propagated `KeyError`. -/
def filterEntsByTh (label_thresholds : Thresholds) :
    List PredEntity → Except Unit (List PredEntity)
  | [] => Except.ok []
  | e :: rest =>
    match keepDecision label_thresholds e with
    | Except.error u => Except.error u
    | Except.ok keep =>
      match filterEntsByTh label_thresholds rest with
      | Except.error u => Except.error u
      | Except.ok kept => Except.ok (if keep then e :: kept else kept)

/-- The outer loop of `filter_entities_by_threshold` over samples. -/
def filterSamplesByTh (label_thresholds : Thresholds) :
    SampleSet → Except Unit SampleSet
  | [] => Except.ok []
  | (sample_id, sample_data) :: rest =>
    match filterEntsByTh label_thresholds sample_data.pred_entities with
    | Except.error u => Except.error u
    | Except.ok kept =>
      match filterSamplesByTh label_thresholds rest with
      | Except.error u => Except.error u
      | Except.ok out =>
        Except.ok ((sample_id, { sample_data with pred_entities := kept }) :: out)

/-- `filter_entities_by_threshold`. -/
def filter_entities_by_threshold (ner_predictions : SampleSet)
    (label_thresholds : Thresholds) : Except Unit SampleSet :=
  filterSamplesByTh label_thresholds ner_predictions

/-- One step of the `merge_consecutive_predictions` loop: state is the
current accumulator entity (if any) and the flushed output list. -/
def mergeStep (full_text : String) :
    Option PredEntity × List PredEntity → PredEntity →
    Option PredEntity × List PredEntity
  | (none, out), entity => (some entity, out)
  | (some current, out), entity =>
    let same_label := current.entity_label = entity.entity_label
    let adjacent := current.end_idx + 1 = entity.start_idx ∨
                    current.end_idx = entity.start_idx
    if same_label ∧ adjacent then
      let join_text := pySlice full_text current.end_idx entity.start_idx
      (some { current with
                end_idx := entity.end_idx,
                text_span := current.text_span ++ join_text ++ entity.text_span,
                score := min current.score entity.score },
       out)
    else
      (some entity, out ++ [current])

/-- `merge_consecutive_predictions` on one document. -/
def mergeDoc (doc : Sample) : Sample :=
  let full_text := doc.title ++ " " ++ doc.abstract
  let res := doc.pred_entities.foldl (mergeStep full_text) (none, [])
  { doc with pred_entities :=
      match res.1 with
      | some current => res.2 ++ [current]
      | none => res.2 }

/-- `merge_consecutive_predictions` (in-place mutation rendered as a
returned value). -/
def merge_consecutive_predictions (data : SampleSet) : SampleSet :=
  data.map (fun q => (q.1, mergeDoc q.2))

/-- The per-entity body of `adjust_predicted_indices`: decrement the end
index, canonicalise the `"ddf"` label, and shift abstract entities back
by `len(title) + 1`. -/
def adjustEntity (title_length : Int) (entity : PredEntity) : PredEntity :=
  let e1 := { entity with end_idx := entity.end_idx - 1 }
  let e2 := if e1.entity_label = "ddf" then { e1 with entity_label := "DDF" } else e1
  if e2.tag = "a" then
    { e2 with start_idx := e2.start_idx - (title_length + 1),
              end_idx := e2.end_idx - (title_length + 1) }
  else e2

/-- `adjust_predicted_indices`. -/
def adjust_predicted_indices (data : SampleSet) : SampleSet :=
  data.map (fun q =>
    (q.1, { q.2 with pred_entities :=
              q.2.pred_entities.map (adjustEntity q.2.title.length) }))

/-! ### `postprocessing_rules.py` (span extension rule engine)

The treatment rule and the intervention rule are the same code up to
the target word (`"treatment"` vs `"intervention"`) and the entity
filter (label `"drug"` vs any label), so the per-entity body is
embedded once, parameterised by the target word.  The regex
`(word|words)([.,;:!?\s]|$)` is unfolded: the alternation tries the
bare word first and backtracks to the plural, so it matches exactly
when the text starts with the bare or plural word followed by listed
punctuation, whitespace, or end of string. -/

/-- Is character `n` of `rest` (regex position after the matched word)
one of `[.,;:!?\s]`, or the end of the string? -/
def boundaryAfter (rest : String) (n : Nat) : Bool :=
  match rest.data.get? n with
  | some c =>
    c = '.' ∨ c = ',' ∨ c = ';' ∨ c = ':' ∨ c = '!' ∨ c = '?' ∨ isPySpace c
  | none => true

/-- `re.match(r'(word|words)([.,;:!?\s]|$)', rest_text)`: the matched
group-1 word, if any. -/
def extendWordMatch (word : String) (rest_text : String) : Option String :=
  if word.data.isPrefixOf rest_text.data ∧ boundaryAfter rest_text word.length then
    some word
  else if (word ++ "s").data.isPrefixOf rest_text.data ∧
          boundaryAfter rest_text (word.length + 1) then
    some (word ++ "s")
  else none

/-- The per-entity body shared by `adjust_entities_treatment_rule` and
`adjust_entities_intervention_rule`: `some` of the extended entity when
the rule fires, `none` otherwise. -/
def extendEntityCore (word : String) (text : String) (entity : Span) : Option Span :=
  let end_pos := entity.end_idx + 1
  if end_pos < (text.length : Int) then
    let following_text := pySlice text end_pos (min (end_pos + 20) (text.length : Int))
    if pyStartsWith following_text " " then
      let rest_text := pyLstrip (pySlice following_text 1 following_text.length)
      match extendWordMatch word rest_text with
      | some matched =>
        let space_offset := pyFind following_text matched - 1
        let new_end_idx := end_pos + space_offset + (matched.length : Int) + 1
        some { entity with
                 end_idx := new_end_idx - 1,
                 text_span := pySlice text entity.start_idx new_end_idx }
      | none => none
    else none
  else none

/-- The in-place update of one entity by a span-extension rule. -/
def extendEntitySuffix (word : String) (text : String) (entity : Span) : Span :=
  (extendEntityCore word text entity).getD entity

/-- `adjust_entities_treatment_rule`: extend `drug` entities of the
given location by a following `treatment`/`treatments`; returns the
updated entity list and the `drugs_extended` count. -/
def adjust_entities_treatment_rule (text : String) (entities : List Span)
    (location_flag : String) : List Span × Nat :=
  (entities.map (fun e =>
     if e.location = location_flag ∧ e.label = "drug" then
       extendEntitySuffix "treatment" text e
     else e),
   (entities.filter (fun e => e.location = location_flag ∧ e.label = "drug")).countP
     (fun e => (extendEntityCore "treatment" text e).isSome))

/-- `adjust_entities_intervention_rule`: extend entities of any label of
the given location by a following `intervention`/`interventions`;
returns the updated entity list and the `entities_extended` count. -/
def adjust_entities_intervention_rule (text : String) (entities : List Span)
    (location_flag : String) : List Span × Nat :=
  (entities.map (fun e =>
     if e.location = location_flag then
       extendEntitySuffix "intervention" text e
     else e),
   (entities.filter (fun e => e.location = location_flag)).countP
     (fun e => (extendEntityCore "intervention" text e).isSome))

/-- Index adjustment as the claim words it (refinement target, for
comparison with the source-derived `adjust_predicted_indices`): only
spans tagged as originating from the abstract have `len(title) + 1`
subtracted from both indices and `end_idx` decremented by 1; the label
`"ddf"` is canonicalised for every span; all other span fields — in
particular the `end_idx` of title spans — are left unchanged. -/
def claimAdjustIndices (data : SampleSet) : SampleSet :=
  data.map (fun q =>
    (q.1, { q.2 with pred_entities := q.2.pred_entities.map (fun e =>
      let e1 := if e.entity_label = "ddf" then { e with entity_label := "DDF" } else e
      if e1.tag = "a" then
        { e1 with start_idx := e1.start_idx - ((q.2.title.length : Int) + 1),
                  end_idx := e1.end_idx - ((q.2.title.length : Int) + 1) - 1 }
      else e1) }))

/-- The threshold governing a label, as the claim describes the lookup:
the label is lower-cased, and `"ddf"` falls back to the entry under
`"DDF"`. -/
def effectiveThreshold (label_thresholds : Thresholds) (label : String) : Option ℚ :=
  match lookupTh label_thresholds (pyLower label) with
  | some t => some t
  | none =>
    if pyLower label = "ddf" then lookupTh label_thresholds "DDF" else none

/-- Whether the filter keeps an entity (the non-raising cases of
`keepDecision`). -/
def keptByTh (label_thresholds : Thresholds) (e : PredEntity) : Bool :=
  match keepDecision label_thresholds e with
  | Except.ok b => b
  | Except.error _ => false

/-- The composite the claim asserts `overwrite_predictions_for_class`
to equal (refinement target, built from the claim's words
`merge(remove_overlapping(remove(base, label), extract(source, label)),
extract(source, label))` out of the source operations those spec names
denote). -/
def claimOverwriteComposite (base_dict class_dict : DocSet)
    (class_label : String) : DocSet :=
  merge_prediction_dicts
    (remove_overlapping_preds (remove_class_predictions base_dict class_label)
      (extract_class_predictions class_dict class_label))
    (extract_class_predictions class_dict class_label)

/-! ### Theorems -/

/-- C7: `spans_overlap` returns true iff the two spans share a location
and their half-open ranges intersect
(`NOT(a.end_idx <= b.start_idx OR b.end_idx <= a.start_idx)`); it is
symmetric, and spans with differing locations never overlap. -/
theorem spans_overlap_characterization (a b : Span) :
    (spans_overlap a b = true ↔
      a.location = b.location ∧
      ¬(a.end_idx ≤ b.start_idx ∨ b.end_idx ≤ a.start_idx)) ∧
    spans_overlap a b = spans_overlap b a ∧
    (a.location ≠ b.location → spans_overlap a b = false) := by
  refine ⟨?_, ?_, ?_⟩
  · unfold spans_overlap
    by_cases h : a.location = b.location
    · rw [if_neg (fun hc => hc h)]
      simp [h, not_or]
    · rw [if_pos h]
      simp [h]
  · unfold spans_overlap
    by_cases h : a.location = b.location
    · rw [if_neg (fun hc => hc h), if_neg (fun hc => hc h.symm), Bool.or_comm]
    · rw [if_pos h, if_pos (fun hx => h hx.symm)]
  · intro h
    unfold spans_overlap
    rw [if_pos h]

/-- Witness for C7 at concrete spans: overlap of `[0,5)` and `[3,9)` in
different locations is `false` by location exclusivity. -/
theorem spans_overlap_characterization_witness :
    spans_overlap ⟨0, 5, "title", "x", "gene"⟩ ⟨3, 9, "abstract", "y", "drug"⟩ = false :=
  (spans_overlap_characterization
    ⟨0, 5, "title", "x", "gene"⟩ ⟨3, 9, "abstract", "y", "drug"⟩).2.2 (by decide)

/-- C2 counterexample: on text `"Drug treatment."`, a `drug` entity with
`start_idx = 0`, `end_idx = 4` (the claim's exclusive-end reading) is
NOT extended by the treatment rule — the rule computes the lookahead
from `end_idx + 1 = 5`, which already skips past the separating space,
so the leading-space test fails and the entity is returned unchanged,
not as the claimed `{0, 14, "Drug treatment"}`. -/
theorem treatment_rule_scenario_counterexample :
    adjust_entities_treatment_rule "Drug treatment."
        [⟨0, 4, "title", "Drug", "drug"⟩] "title" =
      ([⟨0, 4, "title", "Drug", "drug"⟩], 0) ∧
    (⟨0, 4, "title", "Drug", "drug"⟩ : Span) ≠
      ⟨0, 14, "title", "Drug treatment", "drug"⟩ := by
  decide

/-- C2 (amended): the treatment rule works on the inclusive-end
convention of this pipeline stage.  On text `"Drug treatment."`, the
`drug` entity `{start_idx 0, end_idx 3, "Drug"}` is extended to
`{start_idx 0, end_idx 13, "Drug treatment"}`: the following word
`treatment` is absorbed and the trailing period excluded. -/
theorem treatment_rule_scenario_inclusive :
    adjust_entities_treatment_rule "Drug treatment."
        [⟨0, 3, "title", "Drug", "drug"⟩] "title" =
      ([⟨0, 13, "title", "Drug treatment", "drug"⟩], 1) := by
  decide

/-- C4: whenever the next entity has the accumulator's label and abuts
it (`end_idx + 1 = start_idx` or `end_idx = start_idx`), one merge step
fuses the two into a span ending at the next entity's `end_idx`, whose
text is the accumulator's text, the exact source substring spanning the
join, then the next entity's text, and whose score is the minimum of
the two scores. -/
theorem merge_consecutive_fusion (full_text : String)
    (current entity : PredEntity) (out : List PredEntity)
    (hlab : current.entity_label = entity.entity_label)
    (hadj : current.end_idx + 1 = entity.start_idx ∨
            current.end_idx = entity.start_idx) :
    mergeStep full_text (some current, out) entity =
      (some { current with
                end_idx := entity.end_idx,
                text_span := current.text_span ++
                  pySlice full_text current.end_idx entity.start_idx ++
                  entity.text_span,
                score := min current.score entity.score },
       out) := by
  unfold mergeStep
  simp only [if_pos (And.intro hlab hadj)]

/-- Witness for C4 (Scenario D): two adjacent `"chemical"` spans
`[5,10)` then `[10,14)` fuse into `[5,14)` with the minimum of the two
scores, both for one merge step and for
`merge_consecutive_predictions` on a whole document. -/
theorem merge_consecutive_fusion_witness :
    mergeStep "xxxxxABCDEWXYZ"
        (some ⟨5, 10, "t", "ABCDE", "chemical", ⟨7, 10, by decide, by decide⟩⟩, [])
        ⟨10, 14, "t", "WXYZ", "chemical", ⟨2, 5, by decide, by decide⟩⟩ =
      (some ⟨5, 14, "t", "ABCDEWXYZ", "chemical", ⟨2, 5, by decide, by decide⟩⟩, []) ∧
    merge_consecutive_predictions
        [("1", { title := "xxxxxABCDEWXYZ", abstract := "",
                 pred_entities :=
                   [⟨5, 10, "t", "ABCDE", "chemical", ⟨7, 10, by decide, by decide⟩⟩,
                    ⟨10, 14, "t", "WXYZ", "chemical", ⟨2, 5, by decide, by decide⟩⟩] })] =
      [("1", { title := "xxxxxABCDEWXYZ", abstract := "",
               pred_entities :=
                 [⟨5, 14, "t", "ABCDEWXYZ", "chemical", ⟨2, 5, by decide, by decide⟩⟩] })] := by
  constructor
  · exact (merge_consecutive_fusion "xxxxxABCDEWXYZ"
      ⟨5, 10, "t", "ABCDE", "chemical", ⟨7, 10, by decide, by decide⟩⟩
      ⟨10, 14, "t", "WXYZ", "chemical", ⟨2, 5, by decide, by decide⟩⟩ []
      rfl (Or.inr rfl)).trans (by decide)
  · decide

/-- C9: the merge decision never reads the `tag` field — with any tags
`t1`, `t2` whatsoever (in particular a title tag next to an abstract
tag), two consecutive same-label entities adjacent in the concatenated
`title + " " + abstract` coordinate space fuse into a single span. -/
theorem merge_decision_ignores_tag (t1 t2 : String) :
    merge_consecutive_predictions
        [("1", { title := "0123456789", abstract := "abcdefghij",
                 pred_entities :=
                   [⟨3, 10, t1, "3456789", "chemical", 9⟩,
                    ⟨11, 15, t2, "abcd", "chemical", 2⟩] })] =
      [("1", { title := "0123456789", abstract := "abcdefghij",
               pred_entities := [⟨3, 15, t1, "3456789 abcd", "chemical", 2⟩] })] := by
  rfl

/-- C3: every span extended by a span-extension rule (the treatment rule
and the intervention rule are both instances of `extendEntityCore`, at
words `"treatment"` and `"intervention"`) leaves `text_span` equal to
the source-text slice from `start_idx` to its new end.  This stage uses
the inclusive-end convention, so the half-open slice runs up to
`end_idx + 1`. -/
theorem extension_rule_roundtrip (word text : String) (e e' : Span)
    (h : extendEntityCore word text e = some e') :
    e'.text_span = pySlice text e.start_idx (e'.end_idx + 1) := by
  unfold extendEntityCore at h
  by_cases h1 : e.end_idx + 1 < (text.length : Int)
  · rw [if_pos h1] at h
    by_cases h2 : pyStartsWith
        (pySlice text (e.end_idx + 1) (min (e.end_idx + 1 + 20) (text.length : Int)))
        " " = true
    · rw [if_pos h2] at h
      set rest := pyLstrip (pySlice
        (pySlice text (e.end_idx + 1) (min (e.end_idx + 1 + 20) (text.length : Int)))
        1
        (pySlice text (e.end_idx + 1)
          (min (e.end_idx + 1 + 20) (text.length : Int))).length) with hrest
      cases hm : extendWordMatch word rest with
      | none => simp [hm] at h
      | some matched =>
        simp only [hm, Option.some.injEq] at h
        subst h
        dsimp only
        congr 1
        omega
    · rw [if_neg h2] at h
      exact absurd h (by simp)
  · rw [if_neg h1] at h
    exact absurd h (by simp)

/-- Witness for C3: concrete extensions by the treatment rule (on
`"Drug treatment."`) and the intervention rule (on
`"X intervention"`) both satisfy the round-trip equation. -/
theorem extension_rule_roundtrip_witness :
    (Span.mk 0 13 "title" "Drug treatment" "drug").text_span =
      pySlice "Drug treatment." (Span.mk 0 3 "title" "Drug" "drug").start_idx
        ((Span.mk 0 13 "title" "Drug treatment" "drug").end_idx + 1) ∧
    (Span.mk 0 13 "title" "X intervention" "gene").text_span =
      pySlice "X intervention" (Span.mk 0 0 "title" "X" "gene").start_idx
        ((Span.mk 0 13 "title" "X intervention" "gene").end_idx + 1) :=
  ⟨extension_rule_roundtrip "treatment" "Drug treatment."
      (Span.mk 0 3 "title" "Drug" "drug")
      (Span.mk 0 13 "title" "Drug treatment" "drug") (by decide),
   extension_rule_roundtrip "intervention" "X intervention"
      (Span.mk 0 0 "title" "X" "gene")
      (Span.mk 0 13 "title" "X intervention" "gene") (by decide)⟩

/-- C5 counterexample: `adjust_predicted_indices` decrements the
`end_idx` of a title-tagged span too (from 5 to 4 here), so it differs
from the claim's reading, under which spans not tagged as abstract keep
their `end_idx`. -/
theorem adjust_indices_counterexample :
    adjust_predicted_indices
        [("1", { title := "0123456789", abstract := "abc",
                 pred_entities := [⟨2, 5, "t", "x", "gene", 1⟩] })] ≠
      claimAdjustIndices
        [("1", { title := "0123456789", abstract := "abc",
                 pred_entities := [⟨2, 5, "t", "x", "gene", 1⟩] })] ∧
    adjust_predicted_indices
        [("1", { title := "0123456789", abstract := "abc",
                 pred_entities := [⟨2, 5, "t", "x", "gene", 1⟩] })] =
      [("1", { title := "0123456789", abstract := "abc",
               pred_entities := [⟨2, 4, "t", "x", "gene", 1⟩] })] := by
  constructor
  · decide
  · decide

/-- C5 (amended): `adjust_predicted_indices` decrements `end_idx` by 1
for EVERY span (converting the inclusive upstream end to the exclusive
convention); additionally, for spans tagged `"a"` (abstract) it
subtracts `len(title) + 1` from both `start_idx` and `end_idx`; it
canonicalises the label `"ddf"` to `"DDF"` for every span; the spans in
the returned mapping are copies with all other fields unchanged. -/
theorem adjust_indices_characterization (data : SampleSet) :
    adjust_predicted_indices data =
      data.map (fun q =>
        (q.1, { q.2 with pred_entities := q.2.pred_entities.map (fun e =>
          { e with
              start_idx :=
                if e.tag = "a" then e.start_idx - ((q.2.title.length : Int) + 1)
                else e.start_idx,
              end_idx :=
                (if e.tag = "a" then e.end_idx - ((q.2.title.length : Int) + 1)
                 else e.end_idx) - 1,
              entity_label :=
                if e.entity_label = "ddf" then "DDF" else e.entity_label }) })) := by
  unfold adjust_predicted_indices
  refine List.map_congr_left (fun q _ => ?_)
  refine congrArg _ (congrArg _ (List.map_congr_left (fun e _ => ?_)))
  unfold adjustEntity
  by_cases hddf : e.entity_label = "ddf" <;> by_cases ha : e.tag = "a" <;>
    simp only [hddf, ha, if_pos, if_neg, ite_true, ite_false] <;>
    cases e <;> simp_all <;> omega

/-- When no entity of the list makes the per-entity decision raise, the
filter loop returns exactly the passing sublist. -/
theorem filterEntsByTh_ok (th : Thresholds) (ents : List PredEntity)
    (h : ∀ e ∈ ents, keepDecision th e ≠ Except.error ()) :
    filterEntsByTh th ents = Except.ok (ents.filter (keptByTh th)) := by
  induction ents with
  | nil => rfl
  | cons e rest ih =>
    have he : keepDecision th e ≠ Except.error () :=
      h e (List.mem_cons_self e rest)
    have hrest := ih (fun x hx => h x (List.mem_cons_of_mem e hx))
    unfold filterEntsByTh
    cases hd : keepDecision th e with
    | error u => exact absurd (by cases u; exact hd) he
    | ok b =>
      rw [hrest]
      cases b <;> simp [List.filter_cons, keptByTh, hd]

/-- A member entity whose decision raises makes the whole entity loop
raise. -/
theorem filterEntsByTh_error (th : Thresholds) (ents : List PredEntity)
    (e : PredEntity) (hmem : e ∈ ents)
    (herr : keepDecision th e = Except.error ()) :
    filterEntsByTh th ents = Except.error () := by
  induction ents with
  | nil => cases hmem
  | cons a rest ih =>
    unfold filterEntsByTh
    rcases List.mem_cons.mp hmem with rfl | hmem2
    · rw [herr]
    · cases hd : keepDecision th a with
      | error u => cases u; rfl
      | ok b => rw [ih hmem2]

/-- A member sample whose entity loop raises makes the whole filter
raise. -/
theorem filterSamplesByTh_error (th : Thresholds) (preds : SampleSet)
    (pmid : String) (s : Sample) (hmem : (pmid, s) ∈ preds)
    (herr : filterEntsByTh th s.pred_entities = Except.error ()) :
    filterSamplesByTh th preds = Except.error () := by
  induction preds with
  | nil => cases hmem
  | cons a rest ih =>
    obtain ⟨p0, s0⟩ := a
    unfold filterSamplesByTh
    rcases List.mem_cons.mp hmem with heq | hmem2
    · cases heq
      rw [herr]
    · cases hd : filterEntsByTh th s0.pred_entities with
      | error u => cases u; rfl
      | ok kept => rw [ih hmem2]

/-- With a threshold configured under `"DDF"`, no per-entity decision
can raise. -/
theorem keepDecision_ne_error_of_DDF (th : Thresholds) (t : ℚ)
    (hD : lookupTh th "DDF" = some t) (e : PredEntity) :
    keepDecision th e ≠ Except.error () := by
  unfold keepDecision
  cases hl : lookupTh th (pyLower e.entity_label) with
  | some u => simp [hl]
  | none =>
    by_cases hddf : pyLower e.entity_label = "ddf"
    · have hl2 : lookupTh th "ddf" = none := hddf ▸ hl
      simp [hddf, hl2, hD]
    · simp [hddf, hl]

/-- When no entity anywhere raises, the whole filter returns `ok`. -/
theorem filterSamplesByTh_ok (th : Thresholds) (preds : SampleSet)
    (h : ∀ p ∈ preds, ∀ e ∈ (Prod.snd p).pred_entities,
          keepDecision th e ≠ Except.error ()) :
    ∃ out, filterSamplesByTh th preds = Except.ok out := by
  induction preds with
  | nil => exact ⟨[], rfl⟩
  | cons a rest ih =>
    obtain ⟨p0, s0⟩ := a
    obtain ⟨out, hout⟩ := ih (fun p hp => h p (List.mem_cons_of_mem _ hp))
    have h0 := filterEntsByTh_ok th s0.pred_entities
      (h (p0, s0) (List.mem_cons_self _ _))
    refine ⟨(p0, { s0 with pred_entities :=
      s0.pred_entities.filter (keptByTh th) }) :: out, ?_⟩
    unfold filterSamplesByTh
    rw [h0, hout]

/-- C6 counterexample: a span whose label has no configured threshold is
not always dropped — for a `"ddf"`-labelled entity with neither
`"ddf"` nor `"DDF"` configured, `filter_entities_by_threshold` raises
`KeyError` instead of returning the claimed filtered mapping. -/
theorem threshold_filter_ddf_counterexample :
    filter_entities_by_threshold
        [("1", { title := "", abstract := "",
                 pred_entities := [⟨0, 3, "t", "x", "ddf", 1⟩] })]
        [("food", ⟨1, 2, by decide, by decide⟩)] =
      Except.error () ∧
    Except.error () ≠
      (Except.ok [("1", { title := "", abstract := "", pred_entities := [] })] :
        Except Unit SampleSet) := by
  constructor
  · decide
  · decide

/-- C6 (amended): a span is kept iff its score is at or above the
effective threshold of its label (lower-cased lookup, `"ddf"` falling
back to `"DDF"`); a span with no effective threshold is dropped —
except that a `"ddf"` span with neither `"ddf"` nor `"DDF"` configured
makes the filter raise `KeyError` instead of dropping.  Part (3) links
the per-entity decision to the filter loop: when no entity raises, the
kept entities are exactly the sublist passing the decision. -/
theorem threshold_filter_keep_iff :
    (∀ (th : Thresholds) (e : PredEntity),
      ¬(pyLower e.entity_label = "ddf" ∧ lookupTh th "ddf" = none ∧
        lookupTh th "DDF" = none) →
      ((keepDecision th e = Except.ok true ↔
          ∃ t, effectiveThreshold th e.entity_label = some t ∧ t ≤ e.score) ∧
        (effectiveThreshold th e.entity_label = none →
          keepDecision th e = Except.ok false))) ∧
    (∀ (th : Thresholds) (ents : List PredEntity),
      (∀ e ∈ ents, keepDecision th e ≠ Except.error ()) →
      filterEntsByTh th ents = Except.ok (ents.filter (keptByTh th))) := by
  constructor
  · intro th e hno
    unfold keepDecision effectiveThreshold
    cases hl : lookupTh th (pyLower e.entity_label) with
    | some t =>
      simp [hl]
    | none =>
      by_cases hddf : pyLower e.entity_label = "ddf"
      · have hl2 : lookupTh th "ddf" = none := hddf ▸ hl
        cases hD : lookupTh th "DDF" with
        | some t => simp [hl, hl2, hddf, hD]
        | none => exact absurd ⟨hddf, hl2, hD⟩ hno
      · simp [hl, hddf]
  · exact filterEntsByTh_ok

/-- Witness for C6 (Scenario C): with the threshold for `"food"` set to
`0.5`, an entity scoring `0.49` is dropped and one scoring `0.50` is
kept; the general theorem applies at the kept entity, and the filter
loop keeps exactly the passing sublist. -/
theorem threshold_filter_keep_iff_witness :
    ((keepDecision [("food", ⟨1, 2, by decide, by decide⟩)]
          ⟨0, 3, "t", "x", "food", ⟨1, 2, by decide, by decide⟩⟩ = Except.ok true ↔
        ∃ t, effectiveThreshold [("food", ⟨1, 2, by decide, by decide⟩)] "food" =
              some t ∧
          t ≤ (⟨1, 2, by decide, by decide⟩ : ℚ)) ∧
      (effectiveThreshold [("food", ⟨1, 2, by decide, by decide⟩)] "food" = none →
        keepDecision [("food", ⟨1, 2, by decide, by decide⟩)]
            ⟨0, 3, "t", "x", "food", ⟨1, 2, by decide, by decide⟩⟩ =
          Except.ok false)) ∧
    filterEntsByTh [("food", ⟨1, 2, by decide, by decide⟩)]
        [⟨0, 3, "t", "x", "food", ⟨49, 100, by decide, by decide⟩⟩,
         ⟨0, 3, "t", "x", "food", ⟨1, 2, by decide, by decide⟩⟩] =
      Except.ok [⟨0, 3, "t", "x", "food", ⟨1, 2, by decide, by decide⟩⟩] := by
  constructor
  · exact threshold_filter_keep_iff.1
      [("food", ⟨1, 2, by decide, by decide⟩)]
      ⟨0, 3, "t", "x", "food", ⟨1, 2, by decide, by decide⟩⟩ (by decide)
  · exact (threshold_filter_keep_iff.2
      [("food", ⟨1, 2, by decide, by decide⟩)]
      [⟨0, 3, "t", "x", "food", ⟨49, 100, by decide, by decide⟩⟩,
       ⟨0, 3, "t", "x", "food", ⟨1, 2, by decide, by decide⟩⟩]
      (by decide)).trans (by decide)

/-- C10 counterexample: with a threshold configured under the
lower-case key `"ddf"` and no key `"DDF"`, a `"ddf"`-labelled entity
does NOT make the filter raise — the first lookup already succeeds and
the entity is filtered normally (dropped here as `3/10 < 1/2`). -/
theorem threshold_filter_keyerror_counterexample :
    filter_entities_by_threshold
        [("1", { title := "", abstract := "",
                 pred_entities :=
                   [⟨0, 3, "t", "x", "ddf", ⟨3, 10, by decide, by decide⟩⟩] })]
        [("ddf", ⟨1, 2, by decide, by decide⟩)] =
      Except.ok [("1", { title := "", abstract := "", pred_entities := [] })] ∧
    (Except.ok [("1", { title := "", abstract := "", pred_entities := [] })] :
        Except Unit SampleSet) ≠ Except.error () := by
  constructor
  · decide
  · decide

/-- C10 (amended): `filter_entities_by_threshold` raises `KeyError`
whenever some input entity's lower-cased label is `"ddf"` and the
thresholds mapping contains NEITHER `"ddf"` NOR `"DDF"`; and under the
precondition that `"DDF"` is a key of the thresholds mapping, the
function never raises. -/
theorem threshold_filter_keyerror :
    (∀ (th : Thresholds) (preds : SampleSet) (pmid : String) (s : Sample)
        (e : PredEntity),
      (pmid, s) ∈ preds → e ∈ s.pred_entities →
      pyLower e.entity_label = "ddf" →
      lookupTh th "ddf" = none → lookupTh th "DDF" = none →
      filter_entities_by_threshold preds th = Except.error ()) ∧
    (∀ (th : Thresholds) (preds : SampleSet) (t : ℚ),
      lookupTh th "DDF" = some t →
      ∃ out, filter_entities_by_threshold preds th = Except.ok out) := by
  constructor
  · intro th preds pmid s e hmem hent hddf hd1 hd2
    have herr : keepDecision th e = Except.error () := by
      unfold keepDecision
      simp [hddf, hd1, hd2]
    exact filterSamplesByTh_error th preds pmid s hmem
      (filterEntsByTh_error th s.pred_entities e hent herr)
  · intro th preds t hD
    exact filterSamplesByTh_ok th preds
      (fun p _ e _ => keepDecision_ne_error_of_DDF th t hD e)

/-- Witness for C10: an empty thresholds table makes a `"ddf"` entity
raise, while a table holding `"DDF"` never raises. -/
theorem threshold_filter_keyerror_witness :
    filter_entities_by_threshold
        [("1", { title := "", abstract := "",
                 pred_entities := [⟨0, 3, "t", "x", "ddf", 1⟩] })] [] =
      Except.error () ∧
    (∃ out,
      filter_entities_by_threshold
          [("1", { title := "", abstract := "",
                   pred_entities := [⟨0, 3, "t", "x", "ddf", 1⟩] })]
          [("DDF", ⟨1, 2, by decide, by decide⟩)] =
        Except.ok out) := by
  constructor
  · exact threshold_filter_keyerror.1 []
      [("1", { title := "", abstract := "",
               pred_entities := [⟨0, 3, "t", "x", "ddf", 1⟩] })]
      "1" { title := "", abstract := "",
            pred_entities := [⟨0, 3, "t", "x", "ddf", 1⟩] }
      ⟨0, 3, "t", "x", "ddf", 1⟩
      (by decide) (by decide) (by decide) rfl rfl
  · exact threshold_filter_keyerror.2
      [("DDF", ⟨1, 2, by decide, by decide⟩)]
      [("1", { title := "", abstract := "",
               pred_entities := [⟨0, 3, "t", "x", "ddf", 1⟩] })]
      ⟨1, 2, by decide, by decide⟩ rfl

/-- C8: a target document whose PMID is absent from the interfering set
(or whose interfering record has an empty entity list) passes through
`remove_overlapping_preds` with its record — in particular its entity
list — untouched. -/
theorem remove_overlapping_passthrough (base interfering : DocSet)
    (pmid : String) (rec : Doc) (hmem : (pmid, rec) ∈ base)
    (h : lookupDoc interfering pmid = none ∨
         ∃ r, lookupDoc interfering pmid = some r ∧ r.entities = []) :
    removeOverlapDoc interfering (pmid, rec) = (pmid, rec) ∧
    (pmid, rec) ∈ remove_overlapping_preds base interfering := by
  have hint : entitiesAt interfering pmid = [] := by
    unfold entitiesAt
    rcases h with h | ⟨r, hr, he⟩
    · rw [h]
    · rw [hr]
      exact he
  have h1 : removeOverlapDoc interfering (pmid, rec) = (pmid, rec) := by
    unfold removeOverlapDoc
    simp [hint]
  refine ⟨h1, ?_⟩
  unfold remove_overlapping_preds
  have h2 := List.mem_map_of_mem (removeOverlapDoc interfering) hmem
  rwa [h1] at h2

/-- Witness for C8: with an empty interfering set, a concrete record
passes through unchanged. -/
theorem remove_overlapping_passthrough_witness :
    removeOverlapDoc []
        ("1", Doc.mk "m" [⟨0, 5, "title", "x", "gene"⟩] []) =
      ("1", Doc.mk "m" [⟨0, 5, "title", "x", "gene"⟩] []) ∧
    ("1", Doc.mk "m" [⟨0, 5, "title", "x", "gene"⟩] []) ∈
      remove_overlapping_preds
        [("1", Doc.mk "m" [⟨0, 5, "title", "x", "gene"⟩] [])] [] :=
  remove_overlapping_passthrough
    [("1", Doc.mk "m" [⟨0, 5, "title", "x", "gene"⟩] [])] []
    "1" (Doc.mk "m" [⟨0, 5, "title", "x", "gene"⟩] [])
    (by decide) (Or.inl rfl)

/-! ### Lookup lemmas for the ensemble reconciler -/

theorem lookupDoc_cons (q : String × Doc) (rest : DocSet) (pmid : String) :
    lookupDoc (q :: rest) pmid =
      if q.1 = pmid then some q.2 else lookupDoc rest pmid := by
  by_cases h : q.1 = pmid <;> simp [lookupDoc, List.find?_cons, h]

theorem lookupDoc_none_iff (d : DocSet) (pmid : String) :
    lookupDoc d pmid = none ↔ pmid ∉ d.map Prod.fst := by
  induction d with
  | nil => simp [lookupDoc]
  | cons q rest ih =>
    rw [lookupDoc_cons]
    by_cases h : q.1 = pmid
    · simp [h]
    · rw [if_neg h, ih, List.map_cons, List.mem_cons]
      constructor
      · intro hn hc
        exact hc.elim (fun he => h he.symm) hn
      · intro hn hm
        exact hn (Or.inr hm)

theorem removeOverlapDoc_fst (intf : DocSet) (q : String × Doc) :
    (removeOverlapDoc intf q).1 = q.1 := by
  unfold removeOverlapDoc
  dsimp only
  split <;> rfl

theorem lookupDoc_removeOverlapping (base intf : DocSet) (pmid : String) :
    lookupDoc (remove_overlapping_preds base intf) pmid =
      Option.map (fun r => (removeOverlapDoc intf (pmid, r)).2)
        (lookupDoc base pmid) := by
  induction base with
  | nil => rfl
  | cons q rest ih =>
    obtain ⟨q1, q2⟩ := q
    rw [remove_overlapping_preds, List.map_cons, lookupDoc_cons,
        removeOverlapDoc_fst, lookupDoc_cons]
    by_cases h : q1 = pmid
    · subst h
      simp
    · simp only [h, if_false]
      exact ih

theorem lookupDoc_append (a b : DocSet) (pmid : String) :
    lookupDoc (a ++ b) pmid =
      match lookupDoc a pmid with
      | some r => some r
      | none => lookupDoc b pmid := by
  induction a with
  | nil => rfl
  | cons q rest ih =>
    rw [List.cons_append, lookupDoc_cons, lookupDoc_cons]
    by_cases h : q.1 = pmid <;> simp [h, ih]

theorem lookupDoc_map_upd (acc : DocSet) (k : String) (u : Doc → Doc)
    (pmid : String) :
    lookupDoc (acc.map (fun p => if p.1 = k then (p.1, u p.2) else p)) pmid =
      if k = pmid then Option.map u (lookupDoc acc pmid)
      else lookupDoc acc pmid := by
  induction acc with
  | nil => by_cases h : k = pmid <;> simp [lookupDoc, h]
  | cons p rest ih =>
    have hfst : (if p.1 = k then (p.1, u p.2) else p).1 = p.1 := by
      split <;> rfl
    rw [List.map_cons, lookupDoc_cons, hfst, lookupDoc_cons]
    by_cases h1 : p.1 = pmid <;> by_cases h2 : k = pmid
    · have hpk : p.1 = k := h1.trans h2.symm
      rw [if_pos h1, if_pos h2, if_pos hpk, if_pos h1]
      rfl
    · have hpk : ¬ p.1 = k := fun hc => h2 (hc ▸ h1)
      rw [if_pos h1, if_neg h2, if_neg hpk, if_pos h1]
    · rw [if_neg h1, if_pos h2, ih, if_pos h2, if_neg h1]
    · rw [if_neg h1, if_neg h2, ih, if_neg h2, if_neg h1]

theorem lookupDoc_addExtractedStep (acc : DocSet) (q : String × Doc)
    (pmid : String) :
    lookupDoc (addExtractedStep acc q) pmid =
      if q.1 = pmid then
        match lookupDoc acc pmid with
        | some r => some { r with entities := r.entities ++ q.2.entities }
        | none => some (Doc.mk q.2.metadata q.2.entities [])
      else lookupDoc acc pmid := by
  unfold addExtractedStep
  cases hpres : lookupDoc acc q.1 with
  | some r0 =>
    have hc : (some r0 : Option Doc).isSome = true := rfl
    rw [if_pos hc]
    rw [lookupDoc_map_upd acc q.1
      (fun d => { d with entities := d.entities ++ q.2.entities }) pmid]
    by_cases h : q.1 = pmid
    · rw [if_pos h, if_pos h]
      subst h
      rw [hpres]
      rfl
    · rw [if_neg h, if_neg h]
  | none =>
    rw [if_neg (show ¬ (none : Option Doc).isSome = true by simp)]
    rw [lookupDoc_append]
    by_cases h : q.1 = pmid
    · subst h
      rw [hpres]
      simp [lookupDoc_cons]
    · cases hl : lookupDoc acc pmid with
      | some r => rw [if_neg h]
      | none =>
        rw [if_neg h, lookupDoc_cons, if_neg h]
        rfl

theorem extract_cons (q : String × Doc) (rest : DocSet) (L : String) :
    extract_class_predictions (q :: rest) L =
      if q.2.entities.filter (fun e => e.label = L) = [] then
        extract_class_predictions rest L
      else
        (q.1, { q.2 with entities := q.2.entities.filter (fun e => e.label = L) }) ::
          extract_class_predictions rest L := by
  unfold extract_class_predictions
  rw [List.filterMap_cons]
  dsimp only
  by_cases hm : q.2.entities.filter (fun e => e.label = L) = []
  · rw [if_pos hm, if_pos hm]
  · rw [if_neg hm, if_neg hm]

theorem extract_keys_sublist (src : DocSet) (L : String) :
    ((extract_class_predictions src L).map Prod.fst).Sublist
      (src.map Prod.fst) := by
  induction src with
  | nil => exact List.Sublist.refl _
  | cons q rest ih =>
    rw [extract_cons]
    by_cases hm : q.2.entities.filter (fun e => e.label = L) = []
    · rw [if_pos hm, List.map_cons]
      exact List.Sublist.cons q.1 ih
    · rw [if_neg hm, List.map_cons, List.map_cons]
      exact List.Sublist.cons₂ _ ih

theorem lookupDoc_extract (src : DocSet) (L pmid : String)
    (hnd : (src.map Prod.fst).Nodup) :
    lookupDoc (extract_class_predictions src L) pmid =
      match lookupDoc src pmid with
      | none => none
      | some r =>
        if r.entities.filter (fun e => e.label = L) = [] then none
        else some { r with entities := r.entities.filter (fun e => e.label = L) } := by
  induction src with
  | nil => rfl
  | cons q rest ih =>
    rw [List.map_cons, List.nodup_cons] at hnd
    obtain ⟨hq, hnd2⟩ := hnd
    rw [lookupDoc_cons, extract_cons]
    by_cases hm : q.2.entities.filter (fun e => e.label = L) = []
    · rw [if_pos hm]
      by_cases h : q.1 = pmid
      · rw [if_pos h]
        have hpm : pmid ∉ (extract_class_predictions rest L).map Prod.fst :=
          fun hc => hq (h ▸ (extract_keys_sublist rest L).subset hc)
        rw [(lookupDoc_none_iff _ _).mpr hpm]
        simp [hm]
      · rw [if_neg h]
        exact ih hnd2
    · rw [if_neg hm, lookupDoc_cons]
      by_cases h : q.1 = pmid
      · rw [if_pos h, if_pos h]
        simp [hm]
      · rw [if_neg h, if_neg h]
        exact ih hnd2

theorem lookupDoc_addExtracted (ext : DocSet) (acc : DocSet) (pmid : String)
    (hnd : (ext.map Prod.fst).Nodup) :
    lookupDoc (add_extracted_predictions acc ext) pmid =
      match lookupDoc ext pmid with
      | some er =>
        match lookupDoc acc pmid with
        | some r => some { r with entities := r.entities ++ er.entities }
        | none => some (Doc.mk er.metadata er.entities [])
      | none => lookupDoc acc pmid := by
  induction ext generalizing acc with
  | nil => rfl
  | cons q rest ih =>
    rw [List.map_cons, List.nodup_cons] at hnd
    obtain ⟨hq, hnd2⟩ := hnd
    have hstep : add_extracted_predictions acc (q :: rest) =
        add_extracted_predictions (addExtractedStep acc q) rest := rfl
    rw [hstep, ih _ hnd2, lookupDoc_cons, lookupDoc_addExtractedStep]
    by_cases h : q.1 = pmid
    · rw [if_pos h, if_pos h]
      have hrest : lookupDoc rest pmid = none :=
        (lookupDoc_none_iff _ _).mpr (h ▸ hq)
      rw [hrest]
    · rw [if_neg h, if_neg h]

/-- C1 counterexample: `overwrite_predictions_for_class` performs NO
`remove(base, label)` step, so a base `"DDF"` entity that overlaps none
of the source's `"DDF"` entities survives, while the claimed composite
discards it: on this input the function keeps `x` and appends `y`, the
composite returns only `y`. -/
theorem overwrite_predictions_composite_counterexample :
    overwrite_predictions_for_class
        [("1", Doc.mk "m" [⟨0, 5, "title", "x", "DDF"⟩] [])]
        [("1", Doc.mk "n" [⟨100, 105, "title", "y", "DDF"⟩] [])] "DDF" =
      [("1", Doc.mk "m"
        [⟨0, 5, "title", "x", "DDF"⟩, ⟨100, 105, "title", "y", "DDF"⟩] [])] ∧
    claimOverwriteComposite
        [("1", Doc.mk "m" [⟨0, 5, "title", "x", "DDF"⟩] [])]
        [("1", Doc.mk "n" [⟨100, 105, "title", "y", "DDF"⟩] [])] "DDF" =
      [("1", Doc.mk "m" [⟨100, 105, "title", "y", "DDF"⟩] [])] ∧
    overwrite_predictions_for_class
        [("1", Doc.mk "m" [⟨0, 5, "title", "x", "DDF"⟩] [])]
        [("1", Doc.mk "n" [⟨100, 105, "title", "y", "DDF"⟩] [])] "DDF" ≠
      claimOverwriteComposite
        [("1", Doc.mk "m" [⟨0, 5, "title", "x", "DDF"⟩] [])]
        [("1", Doc.mk "n" [⟨100, 105, "title", "y", "DDF"⟩] [])] "DDF" := by
  refine ⟨by decide, by decide, by decide⟩

/-- C1 (amended): for every document of `base`,
`overwrite_predictions_for_class(base, source, L)` discards exactly the
base entities (of any label) that overlap one of source's L-labelled
entities — base entities of label L overlapping none of them are
retained — and appends source's L-labelled entities at the end of the
document's entity list.  (Equivalently, it is
`merge(remove_overlapping(base, extract(source, L)), extract(source, L))`
with no prior `remove(base, L)` step.) -/
theorem overwrite_predictions_net_effect (base src : DocSet)
    (L pmid : String) (rec : Doc)
    (hnd : (src.map Prod.fst).Nodup)
    (hb : lookupDoc base pmid = some rec) :
    entitiesAt (overwrite_predictions_for_class base src L) pmid =
      rec.entities.filter
        (fun e => !(((entitiesAt src pmid).filter (fun s => s.label = L)).any
                      (fun s => spans_overlap e s))) ++
      (entitiesAt src pmid).filter (fun s => s.label = L) := by
  have hndext : ((extract_class_predictions src L).map Prod.fst).Nodup :=
    hnd.sublist (extract_keys_sublist src L)
  have hov : overwrite_predictions_for_class base src L =
      add_extracted_predictions
        (remove_overlapping_preds base (extract_class_predictions src L))
        (extract_class_predictions src L) := rfl
  have hclean : lookupDoc
      (remove_overlapping_preds base (extract_class_predictions src L)) pmid =
      some ((removeOverlapDoc (extract_class_predictions src L) (pmid, rec)).2) := by
    rw [lookupDoc_removeOverlapping, hb]
    rfl
  cases hs : lookupDoc src pmid with
  | none =>
    have hsrcL : entitiesAt src pmid = [] := by
      unfold entitiesAt
      rw [hs]
    have hext : lookupDoc (extract_class_predictions src L) pmid = none := by
      rw [lookupDoc_extract src L pmid hnd, hs]
    have hintf : entitiesAt (extract_class_predictions src L) pmid = [] := by
      unfold entitiesAt
      rw [hext]
    have hro : removeOverlapDoc (extract_class_predictions src L) (pmid, rec) =
        (pmid, rec) := by
      unfold removeOverlapDoc
      simp [hintf]
    have hfin : lookupDoc (overwrite_predictions_for_class base src L) pmid =
        some rec := by
      rw [hov, lookupDoc_addExtracted _ _ _ hndext, hext, hclean, hro]
    rw [hsrcL]
    unfold entitiesAt
    rw [hfin]
    simp
  | some r =>
    have hsrc : entitiesAt src pmid = r.entities := by
      unfold entitiesAt
      rw [hs]
    by_cases hfilter : r.entities.filter (fun s => s.label = L) = []
    · have hext : lookupDoc (extract_class_predictions src L) pmid = none := by
        rw [lookupDoc_extract src L pmid hnd, hs]
        simp [hfilter]
      have hintf : entitiesAt (extract_class_predictions src L) pmid = [] := by
        unfold entitiesAt
        rw [hext]
      have hro : removeOverlapDoc (extract_class_predictions src L) (pmid, rec) =
          (pmid, rec) := by
        unfold removeOverlapDoc
        simp [hintf]
      have hfin : lookupDoc (overwrite_predictions_for_class base src L) pmid =
          some rec := by
        rw [hov, lookupDoc_addExtracted _ _ _ hndext, hext, hclean, hro]
      rw [hsrc, hfilter]
      unfold entitiesAt
      rw [hfin]
      simp
    · have hext : lookupDoc (extract_class_predictions src L) pmid =
          some { r with entities := r.entities.filter (fun s => s.label = L) } := by
        rw [lookupDoc_extract src L pmid hnd, hs]
        simp [hfilter]
      have hintf : entitiesAt (extract_class_predictions src L) pmid =
          r.entities.filter (fun s => s.label = L) := by
        unfold entitiesAt
        rw [hext]
      have hro : removeOverlapDoc (extract_class_predictions src L) (pmid, rec) =
          (pmid,
            { rec with
                entities := rec.entities.filter (fun e =>
                  !((r.entities.filter (fun s => s.label = L)).any
                    (fun s => spans_overlap e s))) }) := by
        unfold removeOverlapDoc
        dsimp only
        rw [hintf, if_neg hfilter]
      have hfin : lookupDoc (overwrite_predictions_for_class base src L) pmid =
          some
            { rec with
                entities := rec.entities.filter (fun e =>
                    !((r.entities.filter (fun s => s.label = L)).any
                      (fun s => spans_overlap e s))) ++
                  r.entities.filter (fun s => s.label = L) } := by
        rw [hov, lookupDoc_addExtracted _ _ _ hndext, hext, hclean, hro]
      rw [hsrc]
      unfold entitiesAt
      rw [hfin]

/-- Witness for C1 at a concrete input: the net-effect equation holds
for a base document holding one `"DDF"` entity and a source document
holding one non-overlapping `"DDF"` entity. -/
theorem overwrite_predictions_net_effect_witness :
    entitiesAt
        (overwrite_predictions_for_class
          [("1", Doc.mk "m" [⟨0, 5, "title", "x", "DDF"⟩] [])]
          [("1", Doc.mk "n" [⟨100, 105, "title", "y", "DDF"⟩] [])] "DDF") "1" =
      (Doc.mk "m" [⟨0, 5, "title", "x", "DDF"⟩] []).entities.filter
        (fun e =>
          !(((entitiesAt
                [("1", Doc.mk "n" [⟨100, 105, "title", "y", "DDF"⟩] [])] "1").filter
              (fun s => s.label = "DDF")).any (fun s => spans_overlap e s))) ++
      (entitiesAt
        [("1", Doc.mk "n" [⟨100, 105, "title", "y", "DDF"⟩] [])] "1").filter
        (fun s => s.label = "DDF") :=
  overwrite_predictions_net_effect
    [("1", Doc.mk "m" [⟨0, 5, "title", "x", "DDF"⟩] [])]
    [("1", Doc.mk "n" [⟨100, 105, "title", "y", "DDF"⟩] [])]
    "DDF" "1" (Doc.mk "m" [⟨0, 5, "title", "x", "DDF"⟩] [])
    (by decide) (by decide)

end GutBrainSpec
